import Mathlib

/-!
Shallow embedding of the cumulus-process helper modules:
`cumulus/s3.py` (URI parsing and the object-store wrappers) and
`cumulus_process/cli.py` (the command-line dispatcher).

Python strings are modelled byte-literally as `List Char`.  The remote
object store is modelled as an association list from (bucket, key) to
object content; the fallible SDK calls (`get_object`, `delete_object`)
are passed in as explicit `Except` results so that every error path of
the wrappers is visible.
-/

set_option autoImplicit false

/-- Byte-literal model of a Python `str`. -/
abbrev Str := List Char

/-- Model of Python `s.split(c)` for a one-character separator: splits on
every occurrence of `c`, keeping empty segments, and returns `[[]]` on the
empty string (Python: `''.split('/') == ['']`). -/
def pySplit (c : Char) : Str → List Str
  | [] => [[]]
  | x :: xs =>
    let r := pySplit c xs
    if x = c then
      [] :: r
    else
      match r with
      | [] => [[x]]
      | y :: ys => (x :: y) :: ys

/-- Model of Python `c.join(l)` for a one-character separator. -/
def joinWith (c : Char) : List Str → Str
  | [] => []
  | [x] => x
  | x :: y :: t => x ++ c :: joinWith c (y :: t)

/-- Model of Python `uri.replace('s3://', '')` with the empty replacement:
removes every non-overlapping occurrence of `s3://`, scanning left to
right without rescanning the output. -/
def removeS3 : Str → Str
  | 's' :: '3' :: ':' :: '/' :: '/' :: rest => removeS3 rest
  | c :: rest => c :: removeS3 rest
  | [] => []

/-- Decides whether the string contains an occurrence of `s3://`. -/
def containsS3 : Str → Bool
  | 's' :: '3' :: ':' :: '/' :: '/' :: _ => true
  | _ :: rest => containsS3 rest
  | [] => false

/-- Errors raised by the Python helpers: the `Exception('Invalid S3 uri …')`
from `uri_parser`, and botocore client errors carrying an error code. -/
inductive PyErr where
  | invalidUri (uri : Str)
  | clientError (code : Str)
deriving DecidableEq, Repr

/-- Result of `uri_parser`: the dict `{'bucket': …, 'key': …, 'filename': …}`. -/
structure Locator where
  bucket : Str
  key : Str
  filename : Str
deriving DecidableEq, Repr

/-- Model of `uri_parser` (s3.py lines 29–40): raise unless the first five
characters are `s3://`, remove every occurrence of `s3://`, split on `/`;
bucket is segment 0, key is the remaining segments re-joined with `/`, and
filename is the last segment. -/
def uriParser (uri : Str) : Except PyErr Locator :=
  if uri.take 5 ≠ "s3://".toList then
    .error (.invalidUri uri)
  else
    let uriObj := pySplit '/' (removeS3 uri)
    .ok { bucket := uriObj.headD []
          key := joinWith '/' (uriObj.drop 1)
          filename := uriObj.getLastD [] }

/-- Model of `os.path.basename` on POSIX: everything after the last `/`. -/
def basename (p : Str) : Str :=
  (pySplit '/' p).getLastD []

/-- Model of the two-argument `os.path.join` on POSIX: an absolute second
component replaces the first; otherwise the parts are concatenated with a
`/` inserted unless the first part is empty or already ends in `/`. -/
def pathJoin (a b : Str) : Str :=
  if b.head? = some '/' then b
  else if a = [] then b
  else if a.getLast? = some '/' then a ++ b
  else a ++ '/' :: b

/-- Decides whether `s` starts with `p`. -/
def begins (p s : Str) : Bool :=
  s.take p.length == p

/-- Model of the S3 bucket contents: ((bucket, key), object bytes). -/
abbrev Store := List ((Str × Str) × Str)

/-- Lookup of an object by bucket and key; the most recent put wins. -/
def lookupStore (store : Store) (b k : Str) : Option Str :=
  (store.find? (fun e => e.1.1 == b && e.1.2 == k)).map (fun e => e.2)

/-- Keys reported by `list_objects_v2(Bucket=loc.bucket, Prefix=loc.key)`:
every key in the bucket that starts with the given key, in store order.
The response carries a `Contents` entry exactly when this list is nonempty. -/
def matchingKeys (store : Store) (loc : Locator) : List Str :=
  ((store.map (fun e => e.1)).filter
      (fun bk => bk.1 == loc.bucket && begins loc.key bk.2)).map (fun bk => bk.2)

/-- Model of `list` (s3.py lines 90–101): parse the uri, ask the store for
keys under the locator's key, and when `Contents` is present render each
key with `os.path.join('s3://' + bucket, key)`; otherwise return `[]`. -/
def s3List (store : Store) (uri : Str) : Except PyErr (List Str) :=
  match uriParser uri with
  | .error e => .error e
  | .ok loc =>
    match matchingKeys store loc with
    | [] => .ok []
    | files => .ok (files.map (fun k => pathJoin ("s3://".toList ++ loc.bucket) k))

/-- Model of `delete` (s3.py lines 104–114): parse the uri outside any
handler, then try `delete_object`, returning `True` on success and `False`
on any exception; `delRes` is the outcome of the underlying SDK call,
its error being the botocore error code. -/
def s3Delete (uri : Str) (delRes : Except Str Unit) : Except PyErr Bool :=
  match uriParser uri with
  | .error e => .error e
  | .ok _ =>
    match delRes with
    | .ok _ => .ok true
    | .error _ => .ok false

/-- Model of `exists` (s3.py lines 117–129): parse the uri outside any
handler, then try `get_object`, returning `True` on success, `False` when
the caught error's code is `NoSuchKey`, and re-raising otherwise;
`getRes` is the outcome of the underlying SDK call. -/
def s3Exists (uri : Str) (getRes : Except Str Str) : Except PyErr Bool :=
  match uriParser uri with
  | .error e => .error e
  | .ok _ =>
    match getRes with
    | .ok _ => .ok true
    | .error code =>
      if code = "NoSuchKey".toList then .ok false
      else .error (.clientError code)

/-- Model of `upload` (s3.py lines 78–87): parse the destination uri, join
its key with the base name of the local file, put the file's bytes at that
key, and return `'s3://' + os.path.join(bucket, os.path.join(key, bname))`. -/
def s3Upload (store : Store) (filename content uri : Str) :
    Except PyErr (Store × Str) :=
  match uriParser uri with
  | .error e => .error e
  | .ok loc =>
    let bname := basename filename
    let destKey := pathJoin loc.key bname
    let uriOut := "s3://".toList ++ pathJoin loc.bucket destKey
    .ok (((loc.bucket, destKey), content) :: store, uriOut)

/-- Model of `download` (s3.py lines 50–66): parse the uri, write the bytes
of the object at (bucket, key) to `os.path.join(path, filename)`, and
return that path; a missing object surfaces as the SDK's `NoSuchKey`.
The result pairs the written path with the bytes written. -/
def s3Download (store : Store) (uri path : Str) :
    Except PyErr (Str × Str) :=
  match uriParser uri with
  | .error e => .error e
  | .ok loc =>
    let fout := pathJoin path loc.filename
    match lookupStore store loc.bucket loc.key with
    | some content => .ok (fout, content)
    | none => .error (.clientError "NoSuchKey".toList)

/-- The three subcommands registered by `parse_args` (cli.py lines 13–43). -/
inductive Command where
  | process
  | recipe
  | activity
deriving DecidableEq, Repr

/-- Names of the registered subcommands. -/
def commandNames : List Str :=
  ["process".toList, "recipe".toList, "activity".toList]

/-- Modelled collaborator (argparse subparsers with `dest='command'`): a
first token naming a registered subcommand selects it; an unrecognized
first token makes the parser exit with a usage error (`SystemExit`); no
token at all parses successfully with `command = None`. -/
def parseCommand (argv : List Str) : Except Unit (Option Command) :=
  match argv with
  | [] => .ok none
  | t :: _ =>
    if t = "process".toList then .ok (some .process)
    else if t = "recipe".toList then .ok (some .recipe)
    else if t = "activity".toList then .ok (some .activity)
    else .error ()

/-- The message the final `else` of `cli` (cli.py line 69) would log, with
the `%s` hole filled by the rendering of the parsed command. -/
def unknownMsg (cmd : Str) : Str :=
  "Unknown command ".toList ++ cmd ++
    " (choose between: process, recipe, activity)".toList

/-- Observable outcome of one `cli` invocation (cli.py lines 46–69):
either a method of the supplied processing class is invoked for one of the
three subcommands, or the `else` branch logs its error and returns, or the
argument parser itself exits before dispatch, or `cli` raises a `KeyError`
when it pops a key absent from the parsed-argument dict. -/
inductive CliOutcome where
  | invoked (c : Command)
  | errorLogged (msg : Str)
  | usageExit
  | keyError (key : Str)
deriving DecidableEq, Repr

/-- Model of `cli` (cli.py lines 46–69).  The shared options (`--path`,
`--loglevel`, `--version`) are declared on the subparsers' parent
`pparser`, not on the top-level parser, so when no subcommand is given the
parsed namespace is exactly `{'command': None}` and
`args.pop('loglevel')` at line 50 raises `KeyError('loglevel')` before
the dispatch on `cmd`; the `else` branch at lines 68–69 is therefore
never reached.  With a registered subcommand the pops succeed and the
matching branch of the processing class is invoked. -/
def cliRun (argv : List Str) : CliOutcome :=
  match parseCommand argv with
  | .error _ => .usageExit
  | .ok (some c) => .invoked c
  | .ok none => .keyError "loglevel".toList

deriving instance DecidableEq for Except

/-! ## Supporting lemmas about the string-operation models -/

theorem pySplit_ne_nil (c : Char) (s : Str) : pySplit c s ≠ [] := by
  induction s with
  | nil => simp [pySplit]
  | cons a xs ih =>
    simp only [pySplit]
    split
    · exact List.cons_ne_nil _ _
    · split
      · exact List.cons_ne_nil _ _
      · exact List.cons_ne_nil _ _

theorem not_mem_of_mem_pySplit (c : Char) (s : Str) :
    ∀ x ∈ pySplit c s, c ∉ x := by
  induction s with
  | nil =>
    intro x hx
    simp [pySplit] at hx
    simp [hx]
  | cons a xs ih =>
    intro x hx
    by_cases hac : a = c
    · simp only [pySplit, if_pos hac] at hx
      rcases List.mem_cons.mp hx with h | h
      · simp [h]
      · exact ih x h
    · cases hr : pySplit c xs with
      | nil => exact absurd hr (pySplit_ne_nil c xs)
      | cons y ys =>
        simp only [pySplit, if_neg hac, hr] at hx
        rcases List.mem_cons.mp hx with h | h
        · subst h
          intro hmem
          rcases List.mem_cons.mp hmem with h1 | h1
          · exact hac h1.symm
          · exact ih y (by simp [hr]) h1
        · exact ih x (by simp [hr, h])

theorem pySplit_append_cons (c : Char) (x r : Str) (hx : c ∉ x) :
    pySplit c (x ++ c :: r) = x :: pySplit c r := by
  induction x with
  | nil => simp [pySplit]
  | cons a x' ih =>
    have hac : ¬ a = c := fun h => hx (h ▸ List.mem_cons_self a x')
    have hx' : c ∉ x' := fun h => hx (List.mem_cons_of_mem a h)
    simp only [List.cons_append, pySplit, if_neg hac]
    rw [show x'.append (c :: r) = x' ++ c :: r from rfl, ih hx']

theorem pySplit_no_sep (c : Char) (x : Str) (hx : c ∉ x) :
    pySplit c x = [x] := by
  induction x with
  | nil => simp [pySplit]
  | cons a x' ih =>
    have hac : ¬ a = c := fun h => hx (h ▸ List.mem_cons_self a x')
    have hx' : c ∉ x' := fun h => hx (List.mem_cons_of_mem a h)
    simp only [pySplit, if_neg hac, ih hx']

theorem joinWith_pySplit (c : Char) (s : Str) :
    joinWith c (pySplit c s) = s := by
  induction s with
  | nil => simp [pySplit, joinWith]
  | cons a xs ih =>
    cases hr : pySplit c xs with
    | nil => exact absurd hr (pySplit_ne_nil c xs)
    | cons y ys =>
      by_cases hac : a = c
      · subst hac
        simp only [pySplit, if_pos rfl, hr, joinWith]
        rw [← hr, ih]
        simp
      · simp only [pySplit, if_neg hac, hr]
        cases ys with
        | nil =>
          simp only [joinWith]
          rw [hr] at ih
          simp only [joinWith] at ih
          simp [ih]
        | cons z zs =>
          simp only [joinWith]
          rw [hr] at ih
          simp only [joinWith] at ih
          simp [ih]

theorem pySplit_joinWith (c : Char) (l : List Str) (hne : l ≠ [])
    (hl : ∀ x ∈ l, c ∉ x) : pySplit c (joinWith c l) = l := by
  induction l with
  | nil => exact absurd rfl hne
  | cons x t ih =>
    cases t with
    | nil =>
      simp only [joinWith]
      exact pySplit_no_sep c x (hl x (List.mem_cons_self x []))
    | cons y t' =>
      simp only [joinWith]
      rw [pySplit_append_cons c x _ (hl x (List.mem_cons_self x _))]
      rw [ih (List.cons_ne_nil y t') (fun z hz => hl z (List.mem_cons_of_mem x hz))]

theorem removeS3_of_not_containsS3 (s : Str) (h : containsS3 s = false) :
    removeS3 s = s := by
  induction s using removeS3.induct with
  | case1 rest =>
    simp [containsS3] at h
  | case2 c rest hne ih =>
    rw [containsS3] at h
    · rw [removeS3]
      · rw [ih h]
      · exact hne
    · exact hne
  | case3 => rfl

theorem removeS3_marker (s : Str) :
    removeS3 ("s3://".toList ++ s) = removeS3 s := rfl

theorem take_five_marker (r : Str) :
    ("s3://".toList ++ r).take 5 = "s3://".toList := rfl

theorem getLastD_irrel {α : Type} (l : List α) (hne : l ≠ []) (d d' : α) :
    l.getLastD d = l.getLastD d' := by
  cases hl : l.getLast? with
  | none => exact absurd (List.getLast?_eq_none_iff.mp hl) hne
  | some a => simp [List.getLastD_eq_getLast?, hl]

theorem head?_ne_of_not_mem {α : Type} (c : α) (l : List α) (h : c ∉ l) :
    l.head? ≠ some c := by
  cases l with
  | nil => simp
  | cons a t =>
    simp only [List.head?_cons, ne_eq, Option.some.injEq]
    intro hac
    exact h (hac ▸ List.mem_cons_self a t)

theorem getLast?_ne_of_not_mem {α : Type} (c : α) (l : List α) (h : c ∉ l) :
    l.getLast? ≠ some c := by
  intro hl
  have hmem : c ∈ l.getLast? := Option.mem_def.mpr hl
  obtain ⟨hne, hx⟩ := List.mem_getLast?_eq_getLast hmem
  exact h (hx ▸ List.getLast_mem hne)

theorem pathJoin_eq_append (a b : Str) (ha : a ≠ [])
    (hla : a.getLast? ≠ some '/') (hb : b.head? ≠ some '/') :
    pathJoin a b = a ++ '/' :: b := by
  rw [pathJoin, if_neg hb, if_neg ha, if_neg hla]

theorem pathJoin_head?_ne (a b : Str) (ha : a.head? ≠ some '/')
    (hb : b.head? ≠ some '/') : (pathJoin a b).head? ≠ some '/' := by
  rw [pathJoin]
  split
  · exact hb
  · split
    · exact hb
    · rename_i hne
      split
      · cases a with
        | nil => exact absurd rfl hne
        | cons x t => simpa using ha
      · cases a with
        | nil => exact absurd rfl hne
        | cons x t => simpa using ha

theorem headD_mem {α : Type} (l : List α) (hl : l ≠ []) (d : α) :
    l.headD d ∈ l := by
  cases l with
  | nil => exact absurd rfl hl
  | cons a t => simp

theorem getLastD_mem {α : Type} (l : List α) (hl : l ≠ []) (d : α) :
    l.getLastD d ∈ l := by
  simp only [List.getLastD_eq_getLast?]
  rw [List.getLast?_eq_getLast_of_ne_nil hl]
  simp [List.getLast_mem hl]

theorem getLastD_cons_of_ne_nil {α : Type} (a d : α) (l : List α) (hl : l ≠ []) :
    (a :: l).getLastD d = l.getLastD d := by
  simp only [List.getLastD_eq_getLast?]
  cases l with
  | nil => exact absurd rfl hl
  | cons b t => rw [List.getLast?_cons_cons]

theorem basename_not_slash (p : Str) : '/' ∉ basename p := by
  rw [basename]
  cases hr : pySplit '/' p with
  | nil => exact absurd hr (pySplit_ne_nil _ _)
  | cons y ys =>
    exact not_mem_of_mem_pySplit '/' p _
      (by rw [hr]; exact getLastD_mem (y :: ys) (List.cons_ne_nil _ _) [])

theorem uriParser_marker (r : Str) :
    uriParser ("s3://".toList ++ r) =
      .ok { bucket := (pySplit '/' (removeS3 r)).headD []
            key := joinWith '/' ((pySplit '/' (removeS3 r)).drop 1)
            filename := (pySplit '/' (removeS3 r)).getLastD [] } := by
  rw [uriParser, if_neg (by simp [take_five_marker]), removeS3_marker]

theorem uriParser_bucket_not_slash (uri : Str) (loc : Locator)
    (hp : uriParser uri = Except.ok loc) : '/' ∉ loc.bucket := by
  unfold uriParser at hp
  split at hp
  · exact absurd hp (by simp)
  · simp only [Except.ok.injEq] at hp
    subst hp
    cases hr : pySplit '/' (removeS3 uri) with
    | nil => exact absurd hr (pySplit_ne_nil _ _)
    | cons y ys =>
      simp only [hr, List.headD_cons]
      exact not_mem_of_mem_pySplit '/' (removeS3 uri) y (by simp [hr])

theorem uriParser_bucket_key (bucket K : Str) (hb : '/' ∉ bucket)
    (hfree : containsS3 (bucket ++ '/' :: K) = false) :
    uriParser ("s3://".toList ++ bucket ++ '/' :: K) =
      .ok { bucket := bucket, key := K,
            filename := (pySplit '/' K).getLastD [] } := by
  have h1 : removeS3 (bucket ++ '/' :: K) = bucket ++ '/' :: K :=
    removeS3_of_not_containsS3 _ hfree
  have h2 : pySplit '/' (bucket ++ '/' :: K) = bucket :: pySplit '/' K :=
    pySplit_append_cons '/' bucket K hb
  rw [show "s3://".toList ++ bucket ++ '/' :: K
        = "s3://".toList ++ (bucket ++ '/' :: K) from by simp,
      uriParser_marker, h1, h2]
  simp only [List.headD_cons, List.drop_one, List.tail_cons]
  rw [joinWith_pySplit '/' K,
      getLastD_cons_of_ne_nil bucket [] _ (pySplit_ne_nil '/' K)]

theorem s3Upload_eq (store : Store) (fn content uri : Str) (loc : Locator)
    (hp : uriParser uri = Except.ok loc) (hb : loc.bucket ≠ [])
    (hk : loc.key.head? ≠ some '/') :
    s3Upload store fn content uri =
      Except.ok (((loc.bucket, pathJoin loc.key (basename fn)), content) :: store,
        "s3://".toList ++ loc.bucket ++ '/' :: pathJoin loc.key (basename fn)) := by
  have hbs : '/' ∉ loc.bucket := uriParser_bucket_not_slash uri loc hp
  have hKh : (pathJoin loc.key (basename fn)).head? ≠ some '/' :=
    pathJoin_head?_ne _ _ hk (head?_ne_of_not_mem '/' _ (basename_not_slash fn))
  have hjoin : pathJoin loc.bucket (pathJoin loc.key (basename fn)) =
      loc.bucket ++ '/' :: pathJoin loc.key (basename fn) :=
    pathJoin_eq_append _ _ hb (getLast?_ne_of_not_mem '/' _ hbs) hKh
  unfold s3Upload
  rw [hp]
  simp only [hjoin]
  rw [← List.append_assoc]

theorem parseCommand_nil : parseCommand [] = Except.ok none := rfl

theorem parseCommand_not_registered (t : Str) (rest : List Str)
    (h : t ∉ commandNames) : parseCommand (t :: rest) = Except.error () := by
  have h1 : ¬ t = "process".toList := fun he => h (by simp [commandNames, he])
  have h2 : ¬ t = "recipe".toList := fun he => h (by simp [commandNames, he])
  have h3 : ¬ t = "activity".toList := fun he => h (by simp [commandNames, he])
  simp only [parseCommand]
  rw [if_neg h1, if_neg h2, if_neg h3]

theorem parseCommand_ok_some (argv : List Str) (c : Command)
    (h : parseCommand argv = Except.ok (some c)) :
    argv.headD [] ∈ commandNames := by
  cases argv with
  | nil => simp [parseCommand] at h
  | cons t rest =>
    by_cases h1 : t = "process".toList
    · simp [commandNames, h1]
    · by_cases h2 : t = "recipe".toList
      · simp [commandNames, h2]
      · by_cases h3 : t = "activity".toList
        · simp [commandNames, h3]
        · simp only [parseCommand] at h
          rw [if_neg h1, if_neg h2, if_neg h3] at h
          exact Except.noConfusion h

theorem uriParser_ok_of_take5 (uri : Str)
    (hv : uri.take 5 = "s3://".toList) :
    uriParser uri = Except.ok
      { bucket := (pySplit '/' (removeS3 uri)).headD []
        key := joinWith '/' ((pySplit '/' (removeS3 uri)).drop 1)
        filename := (pySplit '/' (removeS3 uri)).getLastD [] } := by
  rw [uriParser, if_neg (by simp [hv])]

theorem s3Download_eq (store : Store) (b K dir : Str) (hbs : '/' ∉ b)
    (hfree : containsS3 (b ++ '/' :: K) = false) :
    s3Download store ("s3://".toList ++ b ++ '/' :: K) dir =
      match lookupStore store b K with
      | some content =>
        Except.ok (pathJoin dir ((pySplit '/' K).getLastD []), content)
      | none => Except.error (PyErr.clientError "NoSuchKey".toList) := by
  unfold s3Download
  rw [uriParser_bucket_key b K hbs hfree]

/-! ## Claims -/

/-- C1 (counterexample): the byte-literal reading of the claim fails
because `uri_parser` removes every occurrence of `s3://`, not only the
leading prefix.  For the valid locator string built from `B = "s3:"` and
segments `["", "x"]` — the string `s3://s3://x` — the claim predicts
`bucket = "s3:"`, but the code returns `bucket = "x"`. -/
theorem c1_counterexample :
    uriParser ("s3://".toList ++ joinWith '/' ["s3:".toList, [], "x".toList]) ≠
      Except.ok { bucket := "s3:".toList
                  key := joinWith '/' [([] : Str), "x".toList]
                  filename := "x".toList } := by
  decide

/-- C1 (amended): for every valid locator string `s3://B/K1/.../Kn` whose
part after the scheme prefix contains no further occurrence of the
substring `s3://`, `uri_parser` returns `bucket = B`,
`key = K1/.../Kn` and `filename = Kn`. -/
theorem c1_parse_segments (B : Str) (Ks : List Str) (hne : Ks ≠ [])
    (hseg : ∀ s ∈ B :: Ks, ('/' : Char) ∉ s)
    (hfree : containsS3 (joinWith '/' (B :: Ks)) = false) :
    uriParser ("s3://".toList ++ joinWith '/' (B :: Ks)) =
      Except.ok { bucket := B, key := joinWith '/' Ks,
                  filename := Ks.getLastD [] } := by
  rw [uriParser_marker, removeS3_of_not_containsS3 _ hfree,
      pySplit_joinWith '/' (B :: Ks) (List.cons_ne_nil _ _) hseg]
  simp only [List.headD_cons, List.drop_one, List.tail_cons]
  rw [getLastD_cons_of_ne_nil B [] Ks hne]

/-- C1 (witness): the amended theorem evaluated on
`s3://mybucket/data/file.json`. -/
theorem c1_witness :
    uriParser ("s3://".toList ++
        joinWith '/' ["mybucket".toList, "data".toList, "file.json".toList]) =
      Except.ok { bucket := "mybucket".toList
                  key := joinWith '/' ["data".toList, "file.json".toList]
                  filename := (["data".toList, "file.json".toList]).getLastD [] } :=
  c1_parse_segments "mybucket".toList ["data".toList, "file.json".toList]
    (by decide) (by decide) (by decide)

/-- C2: `uri_parser` raises its invalid-uri error exactly on inputs whose
first five characters are not `s3://`, and returns a locator without
raising on every input that does start with `s3://`. -/
theorem c2_parse_scheme_check (uri : Str) :
    (uri.take 5 ≠ "s3://".toList →
      uriParser uri = Except.error (PyErr.invalidUri uri)) ∧
    (uri.take 5 = "s3://".toList → ∃ loc, uriParser uri = Except.ok loc) := by
  constructor
  · intro h
    rw [uriParser, if_pos h]
  · intro h
    exact ⟨_, uriParser_ok_of_take5 uri h⟩

/-- C2 (witness): `foo` is rejected, `s3://b/k` is accepted. -/
theorem c2_witness :
    uriParser "foo".toList = Except.error (PyErr.invalidUri "foo".toList) ∧
    ∃ loc, uriParser "s3://b/k".toList = Except.ok loc :=
  ⟨(c2_parse_scheme_check "foo".toList).1 (by decide),
   (c2_parse_scheme_check "s3://b/k".toList).2 (by decide)⟩

/-- C3 (counterexample): the invariant fails on `s3://bucket`, where the
parse succeeds with `key = ""` and `filename = "bucket"`, yet the last
slash-delimited component of the empty key is the empty string. -/
theorem c3_counterexample :
    ¬ (∀ (uri : Str) (loc : Locator), uriParser uri = Except.ok loc →
        loc.filename = (pySplit '/' loc.key).getLastD [] ∧
        loc.bucket = (pySplit '/' (uri.drop 5)).headD []) := by
  intro h
  have h1 := (h "s3://bucket".toList
      { bucket := "bucket".toList, key := [], filename := "bucket".toList }
      (by decide)).1
  exact absurd h1 (by decide)

/-- C3 (amended): whenever `uri_parser` succeeds, `bucket` is the first
segment of the uri after removing every occurrence of `s3://`, and
`filename` is the last slash-delimited component of `key`, except in the
degenerate case of a uri with no segments after the bucket, where `key`
is empty and `filename` equals `bucket`. -/
theorem c3_locator_invariant (uri : Str) (loc : Locator)
    (hp : uriParser uri = Except.ok loc) :
    loc.bucket = (pySplit '/' (removeS3 uri)).headD [] ∧
    (loc.filename = (pySplit '/' loc.key).getLastD [] ∨
      (loc.key = [] ∧ loc.filename = loc.bucket)) := by
  unfold uriParser at hp
  split at hp
  · exact absurd hp (by simp)
  · simp only [Except.ok.injEq] at hp
    subst hp
    cases hr : pySplit '/' (removeS3 uri) with
    | nil => exact absurd hr (pySplit_ne_nil _ _)
    | cons y ys =>
      simp only [hr, List.headD_cons, List.drop_one, List.tail_cons]
      refine ⟨by simp, ?_⟩
      rcases ys with _ | ⟨z, zs⟩
      · exact Or.inr ⟨rfl, rfl⟩
      · refine Or.inl ?_
        have hsub : ∀ x ∈ z :: zs, ('/' : Char) ∉ x := by
          intro x hx
          exact not_mem_of_mem_pySplit '/' (removeS3 uri) x (by simp [hr, hx])
        rw [pySplit_joinWith '/' (z :: zs) (List.cons_ne_nil _ _) hsub,
            getLastD_cons_of_ne_nil y [] (z :: zs) (List.cons_ne_nil _ _)]

/-- C3 (witness): the amended invariant evaluated on `s3://b/k`. -/
theorem c3_witness :
    "b".toList = (pySplit '/' (removeS3 "s3://b/k".toList)).headD [] ∧
    ("k".toList = (pySplit '/' "k".toList).getLastD [] ∨
      ("k".toList = ([] : Str) ∧ "k".toList = "b".toList)) :=
  c3_locator_invariant "s3://b/k".toList
    { bucket := "b".toList, key := "k".toList, filename := "k".toList }
    (by decide)

/-- C4: for every valid uri, `exists` returns `False` exactly when the
underlying `get_object` call fails with the `NoSuchKey` code, returns
`True` when it succeeds, and re-raises any other failure. -/
theorem c4_exists_classification (uri : Str)
    (hv : uri.take 5 = "s3://".toList) (getRes : Except Str Str) :
    (∀ v, getRes = Except.ok v → s3Exists uri getRes = Except.ok true) ∧
    (s3Exists uri getRes = Except.ok false ↔
      getRes = Except.error "NoSuchKey".toList) ∧
    (∀ code, getRes = Except.error code → code ≠ "NoSuchKey".toList →
      s3Exists uri getRes = Except.error (PyErr.clientError code)) := by
  have he : ∀ res : Except Str Str, s3Exists uri res = match res with
      | .ok _ => .ok true
      | .error code => if code = "NoSuchKey".toList then .ok false
          else .error (.clientError code) := by
    intro res
    unfold s3Exists
    rw [uriParser_ok_of_take5 uri hv]
  refine ⟨?_, ?_, ?_⟩
  · intro v h
    subst h
    rw [he]
  · rw [he]
    cases getRes with
    | ok v => simp
    | error code =>
      show (if code = "NoSuchKey".toList then (Except.ok false : Except PyErr Bool)
          else Except.error (PyErr.clientError code)) = Except.ok false ↔
        Except.error code = (Except.error "NoSuchKey".toList : Except Str Str)
      by_cases hc : code = "NoSuchKey".toList
      · subst hc
        simp
      · rw [if_neg hc]
        constructor
        · intro h
          exact absurd h (by simp)
        · intro h
          injection h with h2
          exact absurd h2 hc
  · intro code h hc
    subst h
    rw [he (Except.error code)]
    show (if code = "NoSuchKey".toList then (Except.ok false : Except PyErr Bool)
        else Except.error (PyErr.clientError code)) =
      Except.error (PyErr.clientError code)
    rw [if_neg hc]

/-- C4 (witness): the classification evaluated on `s3://b/k` for a
missing object, a denied request, and a successful read. -/
theorem c4_witness :
    s3Exists "s3://b/k".toList (Except.error "NoSuchKey".toList) =
      Except.ok false ∧
    s3Exists "s3://b/k".toList (Except.error "AccessDenied".toList) =
      Except.error (PyErr.clientError "AccessDenied".toList) ∧
    s3Exists "s3://b/k".toList (Except.ok "body".toList) = Except.ok true :=
  ⟨((c4_exists_classification "s3://b/k".toList (by decide) _).2.1).mpr rfl,
   (c4_exists_classification "s3://b/k".toList (by decide) _).2.2
     "AccessDenied".toList rfl (by decide),
   (c4_exists_classification "s3://b/k".toList (by decide) _).1
     "body".toList rfl⟩

/-- C5: for every valid uri, `delete` returns `True` when the underlying
`delete_object` call succeeds, returns `False` when it fails for any
reason, and never raises. -/
theorem c5_delete_never_raises (uri : Str)
    (hv : uri.take 5 = "s3://".toList) (delRes : Except Str Unit) :
    (delRes = Except.ok () → s3Delete uri delRes = Except.ok true) ∧
    (∀ e, delRes = Except.error e → s3Delete uri delRes = Except.ok false) ∧
    (∀ err, s3Delete uri delRes ≠ Except.error err) := by
  have hloc := uriParser_ok_of_take5 uri hv
  unfold s3Delete
  rw [hloc]
  refine ⟨?_, ?_, ?_⟩
  · intro h
    subst h
    rfl
  · intro e h
    subst h
    rfl
  · intro err
    cases delRes <;> simp

/-- C5 (witness): a failed delete on `s3://b/k` yields `False`. -/
theorem c5_witness :
    s3Delete "s3://b/k".toList (Except.error "AccessDenied".toList) =
      Except.ok false :=
  (c5_delete_never_raises "s3://b/k".toList (by decide) _).2.1
    "AccessDenied".toList rfl

/-- C10: for every uri that does not begin with `s3://`, `delete` raises
the locator-parsing error instead of returning `False`, because
`uri_parser` runs before the try/except block. -/
theorem c10_delete_invalid_uri (uri : Str)
    (hv : uri.take 5 ≠ "s3://".toList) (delRes : Except Str Unit) :
    s3Delete uri delRes = Except.error (PyErr.invalidUri uri) := by
  unfold s3Delete
  rw [uriParser, if_pos hv]

/-- C10 (witness): `delete("foo")` raises even when the underlying call
would have succeeded. -/
theorem c10_witness :
    s3Delete "foo".toList (Except.ok ()) =
      Except.error (PyErr.invalidUri "foo".toList) :=
  c10_delete_invalid_uri "foo".toList (by decide) (Except.ok ())

/-- C6 (counterexample): the rendering is not always a fully qualified
locator string.  With an object whose key is `/k` in bucket `b`,
`list("s3://b")` matches the object but `os.path.join('s3://b', '/k')`
collapses to `/k` instead of `s3://b//k`. -/
theorem c6_counterexample :
    s3List [(("b".toList, "/k".toList), "c".toList)] "s3://b".toList ≠
      Except.ok ["s3://b//k".toList] := by
  decide

/-- C6 (amended): `list` returns exactly the objects whose key starts with
the locator's key, each rendered with `os.path.join`; when the bucket is
nonempty and no matching key begins with `/`, that rendering is the fully
qualified string `s3://bucket/objectKey`, and zero matches yield the empty
sequence rather than an error. -/
theorem c6_list_rendering (store : Store) (uri : Str) (loc : Locator)
    (hp : uriParser uri = Except.ok loc) (hb : loc.bucket ≠ [])
    (hk : ∀ k ∈ matchingKeys store loc, k.head? ≠ some '/') :
    s3List store uri =
      Except.ok ((matchingKeys store loc).map
        (fun k => "s3://".toList ++ loc.bucket ++ '/' :: k)) := by
  have hbs : '/' ∉ loc.bucket := uriParser_bucket_not_slash uri loc hp
  have hane : ("s3://".toList ++ loc.bucket) ≠ [] := by simp
  have hlast : ("s3://".toList ++ loc.bucket).getLast? ≠ some '/' := by
    cases hbl : loc.bucket with
    | nil => exact absurd hbl hb
    | cons x t =>
      rw [List.getLast?_append_of_ne_nil _ (by simp [hbl])]
      rw [← hbl]
      exact getLast?_ne_of_not_mem '/' loc.bucket hbs
  have hpoint : ∀ k ∈ matchingKeys store loc,
      pathJoin ("s3://".toList ++ loc.bucket) k =
        "s3://".toList ++ loc.bucket ++ '/' :: k := by
    intro k hkk
    rw [pathJoin_eq_append _ _ hane hlast (hk k hkk)]
  unfold s3List
  rw [hp]
  show (match matchingKeys store loc with
      | [] => (Except.ok [] : Except PyErr (List Str))
      | files => Except.ok (files.map
          (fun k => pathJoin ("s3://".toList ++ loc.bucket) k))) =
    Except.ok ((matchingKeys store loc).map
      (fun k => "s3://".toList ++ loc.bucket ++ '/' :: k))
  cases hm : matchingKeys store loc with
  | nil => rfl
  | cons y ys =>
    show Except.ok ((y :: ys).map
        (fun k => pathJoin ("s3://".toList ++ loc.bucket) k)) =
      Except.ok ((y :: ys).map
        (fun k => "s3://".toList ++ loc.bucket ++ '/' :: k))
    rw [List.map_congr_left (hm ▸ hpoint)]

/-- C6 (witness): the amended statement evaluated on a three-object store
and the uri `s3://b/k`; two keys match and both render fully qualified. -/
theorem c6_witness :
    s3List [(("b".toList, "k1".toList), "c1".toList),
            (("b".toList, "k2x".toList), "c2".toList),
            (("a".toList, "k9".toList), "c3".toList)] "s3://b/k".toList =
      Except.ok ((matchingKeys
          [(("b".toList, "k1".toList), "c1".toList),
           (("b".toList, "k2x".toList), "c2".toList),
           (("a".toList, "k9".toList), "c3".toList)]
          { bucket := "b".toList, key := "k".toList,
            filename := "k".toList }).map
        (fun k => "s3://".toList ++ "b".toList ++ '/' :: k)) :=
  c6_list_rendering
    [(("b".toList, "k1".toList), "c1".toList),
     (("b".toList, "k2x".toList), "c2".toList),
     (("a".toList, "k9".toList), "c3".toList)]
    "s3://b/k".toList
    { bucket := "b".toList, key := "k".toList, filename := "k".toList }
    (by decide) (by decide) (by decide)

/-- C7 (counterexample): the returned string is not always
`s3://bucket/joinedKey`.  For destination `s3://b//x` (key `/x`) and local
file `f.txt`, the object is stored under `/x/f.txt`, yet the function
returns `s3:///x/f.txt` — `os.path.join` drops the bucket because the
joined key is absolute — instead of `s3://b//x/f.txt`. -/
theorem c7_counterexample :
    s3Upload [] "f.txt".toList "c".toList "s3://b//x".toList ≠
      Except.ok ([(("b".toList, "/x/f.txt".toList), "c".toList)],
        "s3://b//x/f.txt".toList) := by
  decide

/-- C7 (amended): for every local path and valid destination uri whose
locator has a nonempty bucket and a key not beginning with `/`, `upload`
stores the content under `os.path.join(key, basename)` — the destination
is always treated as a prefix — and returns
`s3://bucket/os.path.join(key, basename)`. -/
theorem c7_upload_joined_key (store : Store) (fn content uri : Str)
    (loc : Locator) (hp : uriParser uri = Except.ok loc)
    (hb : loc.bucket ≠ []) (hk : loc.key.head? ≠ some '/') :
    s3Upload store fn content uri =
      Except.ok (((loc.bucket, pathJoin loc.key (basename fn)), content) :: store,
        "s3://".toList ++ loc.bucket ++ '/' :: pathJoin loc.key (basename fn)) :=
  s3Upload_eq store fn content uri loc hp hb hk

/-- C7 (witness): uploading `f.txt` to `s3://b/data` stores under
`data/f.txt` and returns `s3://b/data/f.txt`. -/
theorem c7_witness :
    s3Upload [] "f.txt".toList "c".toList "s3://b/data".toList =
      Except.ok ([(("b".toList, pathJoin "data".toList
            (basename "f.txt".toList)), "c".toList)],
        "s3://".toList ++ "b".toList ++ '/' ::
          pathJoin "data".toList (basename "f.txt".toList)) :=
  c7_upload_joined_key [] "f.txt".toList "c".toList "s3://b/data".toList
    { bucket := "b".toList, key := "data".toList, filename := "data".toList }
    (by decide) (by decide) (by decide)

/-- C8 (counterexample): the round trip is not unconditional.  Uploading
`f.txt` to the valid destination `s3://b//x` succeeds, but downloading the
returned uri `s3:///x/f.txt` fails with `NoSuchKey`: the returned string
re-parses to bucket `""` and key `x/f.txt`, not the stored location. -/
theorem c8_counterexample :
    (s3Upload [] "f.txt".toList "c".toList "s3://b//x".toList).map
        (fun r => s3Download r.1 r.2 []) =
      Except.ok (Except.error (PyErr.clientError "NoSuchKey".toList)) := by
  decide

/-- C8 (amended): upload followed by download of the returned uri restores
the exact content, provided the destination locator has a nonempty bucket,
a key not beginning with `/`, and the stored remainder
`bucket ++ '/' ++ joinedKey` contains no occurrence of `s3://`. -/
theorem c8_roundtrip (store : Store) (fn content destUri dir : Str)
    (loc : Locator) (hp : uriParser destUri = Except.ok loc)
    (hb : loc.bucket ≠ []) (hk : loc.key.head? ≠ some '/')
    (hfree : containsS3
      (loc.bucket ++ '/' :: pathJoin loc.key (basename fn)) = false) :
    ∃ store' uriOut fout,
      s3Upload store fn content destUri = Except.ok (store', uriOut) ∧
      s3Download store' uriOut dir = Except.ok (fout, content) := by
  have hup := s3Upload_eq store fn content destUri loc hp hb hk
  have hbs : '/' ∉ loc.bucket := uriParser_bucket_not_slash destUri loc hp
  refine ⟨_, _, pathJoin dir ((pySplit '/'
      (pathJoin loc.key (basename fn))).getLastD []), hup, ?_⟩
  have hfind : lookupStore
      (((loc.bucket, pathJoin loc.key (basename fn)), content) :: store)
      loc.bucket (pathJoin loc.key (basename fn)) = some content := by
    simp [lookupStore]
  rw [s3Download_eq _ _ _ dir hbs hfree, hfind]

/-- C8 (witness): the round trip evaluated for `f.txt` with content
`hello` uploaded to `s3://b/data` and downloaded into `out`. -/
theorem c8_witness :
    ∃ store' uriOut fout,
      s3Upload [] "f.txt".toList "hello".toList "s3://b/data".toList =
        Except.ok (store', uriOut) ∧
      s3Download store' uriOut "out".toList = Except.ok (fout, "hello".toList) :=
  c8_roundtrip [] "f.txt".toList "hello".toList "s3://b/data".toList
    "out".toList
    { bucket := "b".toList, key := "data".toList, filename := "data".toList }
    (by decide) (by decide) (by decide) (by decide)

/-- C9 (counterexample): an invocation whose first token is an unknown
subcommand (`foo`) is rejected by the argument parser with a usage exit —
a raised `SystemExit` — before dispatch; it does not produce the logged
error and silent return that the claim asserts. -/
theorem c9_counterexample :
    cliRun ["foo".toList] = CliOutcome.usageExit ∧
    cliRun ["foo".toList] ≠
      CliOutcome.errorLogged (unknownMsg "foo".toList) := by
  decide

/-- C9 (amended): an invocation whose subcommand token is not one of
`process`, `recipe`, `activity` is rejected by the argument parser with a
usage exit before dispatch, and an invocation with no subcommand at all
parses to `command = None` but raises `KeyError('loglevel')` at the pop on
cli.py line 50, because the shared options live on the subparsers and the
top-level namespace holds only the command.  In neither case is a method
of the processing class invoked, and the logged-error silent no-op branch
at cli.py lines 68–69 is unreachable: `cli` never returns a logged error
for a missing or unknown subcommand. -/
theorem c9_dispatch (argv : List Str) :
    (∀ t rest, argv = t :: rest → t ∉ commandNames →
      cliRun argv = CliOutcome.usageExit) ∧
    (argv = [] → cliRun argv = CliOutcome.keyError "loglevel".toList) ∧
    (∀ msg, cliRun argv ≠ CliOutcome.errorLogged msg) ∧
    (∀ c, cliRun argv = CliOutcome.invoked c →
      argv.headD [] ∈ commandNames) := by
  refine ⟨?_, ?_, ?_, ?_⟩
  · intro t rest h hn
    subst h
    unfold cliRun
    rw [parseCommand_not_registered t rest hn]
  · intro h
    subst h
    rfl
  · intro msg h
    unfold cliRun at h
    cases hpc : parseCommand argv with
    | error e => rw [hpc] at h; exact absurd h (by simp)
    | ok o =>
      cases o with
      | none => rw [hpc] at h; exact absurd h (by simp)
      | some c => rw [hpc] at h; exact absurd h (by simp)
  · intro c h
    unfold cliRun at h
    cases hpc : parseCommand argv with
    | error e => rw [hpc] at h; exact absurd h (by simp)
    | ok o =>
      cases o with
      | none => rw [hpc] at h; exact absurd h (by simp)
      | some c' => exact parseCommand_ok_some argv c' hpc

/-- C9 (witness): the amended statement evaluated with the unknown token
`weird` and with no subcommand; in particular the no-subcommand run does
not produce the logged error the original claim describes. -/
theorem c9_witness :
    cliRun ["weird".toList] = CliOutcome.usageExit ∧
    cliRun [] = CliOutcome.keyError "loglevel".toList ∧
    cliRun [] ≠ CliOutcome.errorLogged (unknownMsg "None".toList) :=
  ⟨(c9_dispatch ["weird".toList]).1 "weird".toList [] rfl (by decide),
   (c9_dispatch []).2.1 rfl,
   (c9_dispatch []).2.2.1 (unknownMsg "None".toList)⟩
